import Mathlib

/-!
Shallow embedding of `services/github/github.go` from the go-neb repository:
the GitHub webhook router (`githubService.OnReceiveWebhook`), the issue
reference matcher (`ownerRepoIssueRegex`, `ownerRepoNumberFromText`), the
expansion engine (the `Expand` closure in `githubService.Plugin`) and the
client constructor (`githubClient`), together with theorems settling the
specification claims about them.
-/

namespace GoNeb

/-- Character class of the regex `[A-z0-9-_]` in `ownerRepoIssueRegex`.
The range `A-z` spans the code points 65..122, so besides the ASCII letters
it also admits the characters 91..96. Literal `-` and `_` complete
the class. -/
def isOwnerChar (c : Char) : Bool :=
  (65 ≤ c.toNat && c.toNat ≤ 122) || (48 ≤ c.toNat && c.toNat ≤ 57)
    || c == '-' || c == '_'

/-- Character class of the regex `[0-9]`. -/
def isDigitChar (c : Char) : Bool :=
  48 ≤ c.toNat && c.toNat ≤ 57

/-- One attempt of the regex `([A-z0-9-_]+)/([A-z0-9-_]+)#([0-9]+)` anchored
at the start of `cs`: greedy maximal owner run, a literal `/`, greedy maximal
repo run, a literal `#`, greedy maximal digit run. Because neither `/` nor
`#` belongs to the bracket classes, the greedy maximal-munch scan coincides
with the backtracking semantics of the regex at this position. Returns the
three captured groups. -/
def matchAt (cs : List Char) : Option (List Char × List Char × List Char) :=
  let owner := cs.takeWhile isOwnerChar
  let rest1 := cs.dropWhile isOwnerChar
  if owner.isEmpty then none
  else if rest1.head? = some '/' then
    let rest2 := rest1.tail
    let repo := rest2.takeWhile isOwnerChar
    let rest3 := rest2.dropWhile isOwnerChar
    if repo.isEmpty then none
    else if rest3.head? = some '#' then
      let rest4 := rest3.tail
      let num := rest4.takeWhile isDigitChar
      if num.isEmpty then none else some (owner, repo, num)
    else none
  else none

/-- Leftmost match of `ownerRepoIssueRegex`: try `matchAt` at every start
position from the left, returning the first success — the semantics of
the Go `regexp.FindStringSubmatch` function for this pattern (captured groups only;
the full match is the concatenation and is unused by the code). -/
def findSubmatch : List Char → Option (List Char × List Char × List Char)
  | [] => none
  | c :: cs =>
    match matchAt (c :: cs) with
    | some r => some r
    | none => findSubmatch cs

/-- Numeric value of a digit run, base 10. -/
def digitsToNat (ds : List Char) : Nat :=
  ds.foldl (fun a c => 10 * a + (c.toNat - 48)) 0

/-- Largest value of the Go `int` type on a 64-bit platform. -/
def maxInt : Nat := 2 ^ 63 - 1

/-- Model of the Go `strconv.Atoi` function, restricted to the inputs it receives here:
the third captured group of the regex, a run of decimal digits (no sign).
`Atoi` returns the parsed value, or an error when the input is empty, holds
a non-digit, or the value overflows the 64-bit `int` range. -/
def atoi (ds : List Char) : Except String Int :=
  if ds.isEmpty then Except.error "invalid syntax"
  else if ds.all isDigitChar then
    if digitsToNat ds ≤ maxInt then Except.ok (digitsToNat ds : Int)
    else Except.error "value out of range"
  else Except.error "invalid syntax"

/-- Embedding of `ownerRepoNumberFromText`: run the regex over the text; on
no match report an error, otherwise `Atoi` the third group and return the
triple `(owner, repo, number)` or the `Atoi` error. -/
def ownerRepoNumberFromText (ownerRepoNumberText : String) :
    Except String (String × String × Int) :=
  match findSubmatch ownerRepoNumberText.toList with
  | none => Except.error ("No match found for " ++ ownerRepoNumberText)
  | some (owner, repo, num) =>
    match atoi num with
    | Except.error e => Except.error e
    | Except.ok n => Except.ok (owner.asString, repo.asString, n)

/-- A GitHub issue as used by the expansion: the two fields the code reads
from the `go-github` response. -/
structure Issue where
  htmlURL : String
  title : String
deriving DecidableEq

/-- `matrix.TextMessage`: a Matrix message with a msgtype and a body. -/
structure TextMessage where
  msgtype : String
  body : String
deriving DecidableEq

/-- A `go-github` client as far as the code observes it: the OAuth2 token
source it was built around (`none` models the nil token source of an
unauthenticated client). -/
structure GithubClient where
  tokenSource : Option String
deriving DecidableEq

/-- Embedding of `githubClient`: a nil token source when `token` is empty,
a static token source holding `token` otherwise. -/
def githubClient (token : String) : GithubClient :=
  if token == "" then { tokenSource := none }
  else { tokenSource := some token }

/-- A client is authenticated exactly when it carries a token source. -/
def GithubClient.authenticated (cli : GithubClient) : Bool :=
  cli.tokenSource.isSome

/-- Embedding of the `Expand` closure of `githubService.Plugin`. The call
`cli.Issues.Get(owner, repo, num)` is the `resolver` parameter, applied to
the client the closure builds. Extraction failure and resolver failure both
yield `none` (the closure logs and returns nil); success yields the
`m.notice` message `"<url> : <title>"`. -/
def expand (resolver : GithubClient → String → String → Int → Except String Issue)
    (_roomID matchingText : String) : Option TextMessage :=
  let cli := githubClient ""
  match ownerRepoNumberFromText matchingText with
  | Except.error _ => none
  | Except.ok (owner, repo, num) =>
    match resolver cli owner repo num with
    | Except.error _ => none
    | Except.ok i => some { msgtype := "m.notice", body := i.htmlURL ++ " : " ++ i.title }

/-- The expansion engine with the resolver already applied to a client:
used to state that `expand` consults its resolver only through the
unauthenticated client it constructs. -/
def expandCore (lookup : String → String → Int → Except String Issue)
    (matchingText : String) : Option TextMessage :=
  match ownerRepoNumberFromText matchingText with
  | Except.error _ => none
  | Except.ok (owner, repo, num) =>
    match lookup owner repo num with
    | Except.error _ => none
    | Except.ok i => some { msgtype := "m.notice", body := i.htmlURL ++ " : " ++ i.title }

/-- A log record emitted during one routing pass: the pre-send notice for a
room, or the record of a failed send to a room. -/
inductive LogEntry where
  | sending (roomID : String)
  | sendFailed (roomID : String)
deriving DecidableEq

/-- Whether a log record reports a failed send. -/
def LogEntry.isFailed : LogEntry → Bool
  | .sending _ => false
  | .sendFailed _ => true

/-- Everything `OnReceiveWebhook` does that its environment can observe:
the HTTP status written to the response, the `SendMessageEvent` calls made
(room id paired with the message sent, in iteration order), and the log
records emitted. -/
structure WebhookOutcome where
  status : Nat
  attempts : List (String × String)
  logs : List LogEntry
deriving DecidableEq

/-- The fan-out loop of `OnReceiveWebhook` over `s.Rooms` (modelled as an
association list in one iteration order of the Go map). For each room whose
event-type list contains `evType`, log the notice, call
`SendMessageEvent` — its success or failure is the `send` parameter — and
on failure log that too; rooms not subscribed to `evType` are skipped. -/
def routeRooms (evType msg : String) (send : String → String → Bool) :
    List (String × List String) → List (String × String) × List LogEntry
  | [] => ([], [])
  | (roomID, notif) :: rest =>
    if notif.any (fun notifyType => notifyType == evType) then
      let here : List LogEntry :=
        LogEntry.sending roomID ::
          (if send roomID msg then [] else [LogEntry.sendFailed roomID])
      let tail := routeRooms evType msg send rest
      ((roomID, msg) :: tail.1, here ++ tail.2)
    else routeRooms evType msg send rest

/-- Embedding of `githubService.OnReceiveWebhook`. The call to
`webhook.OnReceiveRequest` is the `decoded` parameter: an error with an
HTTP code, or the triple `(evType, repo, msg)` (`repo` is only logged).
On decode failure the error code is written and nothing else happens; on
success the fan-out loop runs and then 200 is written. -/
def OnReceiveWebhook (decoded : Except Nat (String × String × String))
    (rooms : List (String × List String)) (send : String → String → Bool) :
    WebhookOutcome :=
  match decoded with
  | Except.error code => { status := code, attempts := [], logs := [] }
  | Except.ok (evType, _repo, msg) =>
    let r := routeRooms evType msg send rooms
    { status := 200, attempts := r.1, logs := r.2 }

/-! ### Routing lemmas -/

@[simp]
theorem isFailed_sending (r : String) : (LogEntry.sending r).isFailed = false := rfl

@[simp]
theorem isFailed_sendFailed (r : String) : (LogEntry.sendFailed r).isFailed = true := rfl

/-- The rooms the fan-out loop delivers to are exactly the table entries
whose event-type list contains the event type, in iteration order, each
paired with the decoded message. -/
theorem routeRooms_fst (evType msg : String) (send : String → String → Bool)
    (rooms : List (String × List String)) :
    (routeRooms evType msg send rooms).1
      = (rooms.filter (fun p => p.2.any (fun t => t == evType))).map
          (fun p => (p.1, msg)) := by
  induction rooms with
  | nil => rfl
  | cons p rest ih =>
    obtain ⟨roomID, notif⟩ := p
    by_cases h : notif.any (fun t => t == evType) <;>
      simp [routeRooms, h, List.filter_cons, ih]

/-- Log records of the fan-out loop, with failure records removed, equal
the log records of an all-successful pass. -/
theorem routeRooms_logs_filter (evType msg : String) (send : String → String → Bool)
    (rooms : List (String × List String)) :
    ((routeRooms evType msg send rooms).2.filter (fun e => !e.isFailed))
      = (routeRooms evType msg (fun _ _ => true) rooms).2 := by
  induction rooms with
  | nil => rfl
  | cons p rest ih =>
    obtain ⟨roomID, notif⟩ := p
    by_cases h : notif.any (fun t => t == evType) <;>
      by_cases hs : send roomID msg <;>
        simp [routeRooms, h, hs, ih]

/-- C1: for a decoded event of type `T`, the router attempts delivery of the
message to exactly those rooms whose subscribed event-type list contains
`T`; a room absent from the table (not a key of `Rooms`) receives no
delivery. -/
theorem routing_partition (rooms : List (String × List String))
    (T repo msg : String) (send : String → String → Bool) :
    (∀ r, (∃ m, (r, m) ∈ (OnReceiveWebhook (Except.ok (T, repo, msg)) rooms send).attempts)
        ↔ ∃ notif, (r, notif) ∈ rooms ∧ T ∈ notif)
    ∧ ∀ r, r ∉ rooms.map Prod.fst →
        ∀ m, (r, m) ∉ (OnReceiveWebhook (Except.ok (T, repo, msg)) rooms send).attempts := by
  have hatt : (OnReceiveWebhook (Except.ok (T, repo, msg)) rooms send).attempts
      = (rooms.filter (fun p => p.2.any (fun t => t == T))).map (fun p => (p.1, msg)) := by
    simp [OnReceiveWebhook, routeRooms_fst]
  have hmem : ∀ r, (∃ m, (r, m) ∈ (OnReceiveWebhook (Except.ok (T, repo, msg)) rooms send).attempts)
      ↔ ∃ notif, (r, notif) ∈ rooms ∧ T ∈ notif := by
    intro r
    rw [hatt]
    constructor
    · rintro ⟨m, hm⟩
      rcases List.mem_map.mp hm with ⟨p, hp, hpe⟩
      obtain ⟨pr, pn⟩ := p
      rcases List.mem_filter.mp hp with ⟨hprooms, hpq⟩
      rcases List.any_eq_true.mp hpq with ⟨t, ht, hte⟩
      injection hpe with h1 h2
      have htT : t = T := beq_iff_eq.mp hte
      exact ⟨pn, h1 ▸ hprooms, htT ▸ ht⟩
    · rintro ⟨notif, hmemr, hT⟩
      refine ⟨msg, List.mem_map.mpr ⟨(r, notif), List.mem_filter.mpr ⟨hmemr, ?_⟩, rfl⟩⟩
      exact List.any_eq_true.mpr ⟨T, hT, beq_self_eq_true T⟩
  refine ⟨hmem, ?_⟩
  intro r hr m hm
  rcases (hmem r).mp ⟨m, hm⟩ with ⟨notif, hmemr, _⟩
  exact hr (List.mem_map.mpr ⟨(r, notif), hmemr, rfl⟩)

/-- C1 witness: for a table subscribing one room to "push" and another to
"issue", a "push" event is delivered to the first room, and a room absent
from the table receives nothing. -/
theorem routing_partition_witness :
    (∃ m, ("!r1:x", m) ∈ (OnReceiveWebhook (Except.ok ("push", "octocat/Hello-World", "m"))
        [("!r1:x", ["push"]), ("!r2:x", ["issue"])] (fun _ _ => true)).attempts)
    ∧ ∀ m, ("!r3:x", m) ∉ (OnReceiveWebhook (Except.ok ("push", "octocat/Hello-World", "m"))
        [("!r1:x", ["push"]), ("!r2:x", ["issue"])] (fun _ _ => true)).attempts := by
  have h := routing_partition [("!r1:x", ["push"]), ("!r2:x", ["issue"])]
      "push" "octocat/Hello-World" "m" (fun _ _ => true)
  exact ⟨(h.1 "!r1:x").mpr ⟨["push"], by simp, by simp⟩, h.2 "!r3:x" (by simp)⟩

/-- C2: the set of delivery attempts, and the resulting status, are the same
whatever the per-room delivery outcomes — a failure never aborts the pass —
and the log records, once failure records are removed, are also independent
of the outcomes: the only effect of a failure beyond its own send is a log
record. -/
theorem routing_failure_isolated (rooms : List (String × List String))
    (T repo msg : String) (send₁ send₂ : String → String → Bool) :
    (OnReceiveWebhook (Except.ok (T, repo, msg)) rooms send₁).attempts
      = (OnReceiveWebhook (Except.ok (T, repo, msg)) rooms send₂).attempts
    ∧ (OnReceiveWebhook (Except.ok (T, repo, msg)) rooms send₁).status
      = (OnReceiveWebhook (Except.ok (T, repo, msg)) rooms send₂).status
    ∧ (OnReceiveWebhook (Except.ok (T, repo, msg)) rooms send₁).logs.filter
          (fun e => !e.isFailed)
      = (OnReceiveWebhook (Except.ok (T, repo, msg)) rooms send₂).logs.filter
          (fun e => !e.isFailed) := by
  refine ⟨?_, rfl, ?_⟩
  · simp [OnReceiveWebhook, routeRooms_fst]
  · show ((routeRooms T msg send₁ rooms).2.filter fun e => !e.isFailed)
        = ((routeRooms T msg send₂ rooms).2.filter fun e => !e.isFailed)
    rw [routeRooms_logs_filter, routeRooms_logs_filter]

/-- Any-membership: the subscription test of the loop succeeds exactly when the
event type is in the list of the room. -/
theorem any_beq_mem (l : List String) (T : String) :
    (l.any fun t => t == T) = true ↔ T ∈ l := by
  simp [List.any_eq_true, beq_iff_eq]

/-- Delivery attempts depend on the event-type list of each room only through
membership: tables equal room-by-room up to set-equality of the lists
produce identical attempts. -/
theorem routeRooms_membership_congr (T msg : String) (send : String → String → Bool)
    {rooms₁ rooms₂ : List (String × List String)}
    (hrel : List.Forall₂ (fun p q => p.1 = q.1 ∧ ∀ t, t ∈ p.2 ↔ t ∈ q.2) rooms₁ rooms₂) :
    (routeRooms T msg send rooms₁).1 = (routeRooms T msg send rooms₂).1 := by
  rw [routeRooms_fst, routeRooms_fst]
  induction hrel with
  | nil => rfl
  | @cons a b l₁ l₂ hab htail ih =>
    obtain ⟨h1, h2⟩ := hab
    have hany : (a.2.any fun t => t == T) = (b.2.any fun t => t == T) := by
      have hiff : (a.2.any fun t => t == T) = true ↔ (b.2.any fun t => t == T) = true := by
        rw [any_beq_mem, any_beq_mem]; exact h2 T
      cases hA : (a.2.any fun t => t == T) <;> cases hB : (b.2.any fun t => t == T) <;>
        simp_all
    by_cases hc : (a.2.any fun t => t == T) = true
    · have hc' : (b.2.any fun t => t == T) = true := hany.symm.trans hc
      simp [List.filter_cons, hc, hc', h1, ih]
    · have hc' : ¬(b.2.any fun t => t == T) = true := fun h => hc (hany.trans h)
      simp [List.filter_cons, hc, hc', ih]

/-- C8: the event-type list of each room acts as a set — replacing every list by
one with the same members (any permutation or duplication) leaves the
delivery attempts unchanged — and when the room keys of the table are distinct
(as keys of the Go map are), each room receives at most one delivery call:
the attempted room ids are themselves distinct. -/
theorem routing_set_semantics (rooms₁ rooms₂ : List (String × List String))
    (T repo msg : String) (send : String → String → Bool)
    (hrel : List.Forall₂ (fun p q => p.1 = q.1 ∧ ∀ t, t ∈ p.2 ↔ t ∈ q.2) rooms₁ rooms₂) :
    (OnReceiveWebhook (Except.ok (T, repo, msg)) rooms₁ send).attempts
      = (OnReceiveWebhook (Except.ok (T, repo, msg)) rooms₂ send).attempts
    ∧ ((rooms₁.map Prod.fst).Nodup →
        ((OnReceiveWebhook (Except.ok (T, repo, msg)) rooms₁ send).attempts.map
            Prod.fst).Nodup) := by
  constructor
  · show (routeRooms T msg send rooms₁).1 = (routeRooms T msg send rooms₂).1
    exact routeRooms_membership_congr T msg send hrel
  · intro hnd
    have hatt1 : (OnReceiveWebhook (Except.ok (T, repo, msg)) rooms₁ send).attempts
        = (rooms₁.filter (fun p => p.2.any fun t => t == T)).map (fun p => (p.1, msg)) := by
      simp [OnReceiveWebhook, routeRooms_fst]
    rw [hatt1, List.map_map]
    have heq : (List.map (Prod.fst ∘ fun p => (p.1, msg))
          (rooms₁.filter fun p => p.2.any fun t => t == T))
        = List.map Prod.fst (rooms₁.filter fun p => p.2.any fun t => t == T) := rfl
    rw [heq]
    exact hnd.sublist ((List.filter_sublist rooms₁).map Prod.fst)

/-- C3: the router writes HTTP 200 whenever the event decodes, for every
pattern of per-room delivery outcomes; on decode failure it writes the
decoder code verbatim and attempts no delivery. -/
theorem webhook_status (rooms : List (String × List String))
    (send : String → String → Bool) (T repo msg : String) (c : Nat) :
    (OnReceiveWebhook (Except.ok (T, repo, msg)) rooms send).status = 200
    ∧ (OnReceiveWebhook (Except.error c) rooms send).status = c
    ∧ (OnReceiveWebhook (Except.error c) rooms send).attempts = [] :=
  ⟨rfl, rfl, rfl⟩

/-! ### Extraction and expansion lemmas -/

/-- The character class the specification claims for owner and repo:
ASCII alphanumerics, hyphen and underscore only. Stated from the spec so it
can be compared with `isOwnerChar` from the source; the regex range `A-z`
makes the two differ on the code points 91..96 other than 95. -/
def specOwnerChar (c : Char) : Bool :=
  (65 ≤ c.toNat && c.toNat ≤ 90) || (97 ≤ c.toNat && c.toNat ≤ 122)
    || (48 ≤ c.toNat && c.toNat ≤ 57) || c == '-' || c == '_'

/-- C9: extraction on "octocat/Hello-World#123" yields owner `octocat`,
repository `Hello-World` and number 123; extraction on "not-a-match"
yields the no-match error. -/
theorem extraction_examples :
    ownerRepoNumberFromText "octocat/Hello-World#123"
        = Except.ok ("octocat", "Hello-World", (123 : Int))
    ∧ ownerRepoNumberFromText "not-a-match"
        = Except.error "No match found for not-a-match" := by
  exact ⟨rfl, rfl⟩

/-- C4: the matcher accepts the caret in the owner and repo fields — the
input "^/^#1" extracts successfully — although the caret is outside the
claimed class of alphanumerics, hyphen and underscore; the regex bracket
range `A-z` admits it. -/
theorem regex_accepts_caret :
    ownerRepoNumberFromText "^/^#1" = Except.ok ("^", "^", (1 : Int))
    ∧ specOwnerChar '^' = false ∧ isOwnerChar '^' = true := by
  exact ⟨rfl, by decide, by decide⟩

/-- C7: whenever the resolver produces an issue, the expansion returns the
`m.notice` message whose body is exactly the issue URL, then " : ", then
the title. -/
theorem expansion_format (room text owner repo : String) (num : Int)
    (resolver : GithubClient → String → String → Int → Except String Issue) (i : Issue)
    (hext : ownerRepoNumberFromText text = Except.ok (owner, repo, num))
    (hres : resolver (githubClient "") owner repo num = Except.ok i) :
    expand resolver room text
      = some { msgtype := "m.notice", body := i.htmlURL ++ " : " ++ i.title } := by
  simp [expand, hext, hres]

/-- C7 witness: on the text "see octocat/Hello-World#1 for details" with a
resolver returning url "http://x/1" and title "Fix bug", the expansion
output is exactly "http://x/1 : Fix bug". -/
theorem expansion_format_witness :
    expand (fun _ _ _ _ => Except.ok { htmlURL := "http://x/1", title := "Fix bug" })
        "!room:example.org" "see octocat/Hello-World#1 for details"
      = some { msgtype := "m.notice", body := "http://x/1 : Fix bug" } := by
  have h := expansion_format "!room:example.org" "see octocat/Hello-World#1 for details"
      "octocat" "Hello-World" 1
      (fun _ _ _ _ => Except.ok { htmlURL := "http://x/1", title := "Fix bug" })
      { htmlURL := "http://x/1", title := "Fix bug" } rfl rfl
  exact h

/-- C6: whenever the resolver fails with any error on a validly extracted
reference, the expansion returns nothing — no error and no partial
message. -/
theorem resolver_error_silent (room text owner repo : String) (num : Int)
    (resolver : GithubClient → String → String → Int → Except String Issue) (e : String)
    (hext : ownerRepoNumberFromText text = Except.ok (owner, repo, num))
    (hres : resolver (githubClient "") owner repo num = Except.error e) :
    expand resolver room text = none := by
  simp [expand, hext, hres]

/-- C6 witness: a resolver failing with "404: Not Found" on the valid
reference "octocat/Hello-World#1" makes the expansion return nothing. -/
theorem resolver_error_silent_witness :
    expand (fun _ _ _ _ => Except.error "404: Not Found")
        "!room:example.org" "octocat/Hello-World#1" = none := by
  exact resolver_error_silent "!room:example.org" "octocat/Hello-World#1"
    "octocat" "Hello-World" 1 (fun _ _ _ _ => Except.error "404: Not Found")
    "404: Not Found" rfl rfl

/-- C10: every expansion consults its resolver only through the client
built by `githubClient ""` — the empty access token — and that client is
unauthenticated: its token source is nil. -/
theorem unauthenticated_client
    (resolver : GithubClient → String → String → Int → Except String Issue)
    (room text : String) :
    expand resolver room text = expandCore (resolver (githubClient "")) text
    ∧ (githubClient "").authenticated = false
    ∧ (githubClient "").tokenSource = none := by
  refine ⟨?_, rfl, rfl⟩
  cases h : ownerRepoNumberFromText text with
  | error e => simp [expand, expandCore, h]
  | ok v =>
    obtain ⟨o, r, n⟩ := v
    simp [expand, expandCore, h]

/-- The number group of a successful `matchAt` is a non-empty digit run. -/
theorem matchAt_num {cs o r n : List Char} (h : matchAt cs = some (o, r, n)) :
    n ≠ [] ∧ ∀ c ∈ n, isDigitChar c = true := by
  simp only [matchAt] at h
  split_ifs at h with h1 h2 h3 h4 h5
  simp only [Option.some.injEq, Prod.mk.injEq] at h
  obtain ⟨ho, hr, hn⟩ := h
  subst hn
  refine ⟨?_, fun c hc => List.mem_takeWhile_imp hc⟩
  intro hnil
  exact h5 (by simp [hnil])

/-- The number group of a successful leftmost match is a non-empty digit
run. -/
theorem findSubmatch_num {cs o r n : List Char}
    (h : findSubmatch cs = some (o, r, n)) :
    n ≠ [] ∧ ∀ c ∈ n, isDigitChar c = true := by
  induction cs with
  | nil => simp [findSubmatch] at h
  | cons c cs ih =>
    rw [findSubmatch] at h
    rcases hm : matchAt (c :: cs) with _ | v
    · rw [hm] at h
      exact ih h
    · rw [hm] at h
      injection h with h'
      exact matchAt_num (hm.trans (congrArg some h'))

/-- `Atoi` rejects a digit run whose value exceeds the 64-bit `int`
range. -/
theorem atoi_overflow {n : List Char} (hne : n ≠ [])
    (hd : ∀ c ∈ n, isDigitChar c = true) (hbig : maxInt < digitsToNat n) :
    atoi n = Except.error "value out of range" := by
  unfold atoi
  rw [if_neg (by simp [hne]), if_pos (List.all_eq_true.mpr hd),
    if_neg (not_le.mpr hbig)]

/-- C5: a matched span whose number field exceeds the integer range yields
no structured reference — extraction reports the `Atoi` range error — and
the expansion produces no message, for every resolver. -/
theorem number_overflow_discarded (text : String) (o r n : List Char)
    (hmatch : findSubmatch text.toList = some (o, r, n))
    (hbig : maxInt < digitsToNat n)
    (resolver : GithubClient → String → String → Int → Except String Issue)
    (room : String) :
    ownerRepoNumberFromText text = Except.error "value out of range"
    ∧ expand resolver room text = none := by
  obtain ⟨hne, hd⟩ := findSubmatch_num hmatch
  have hatoi := atoi_overflow hne hd hbig
  have hmatch2 : findSubmatch text.data = some (o, r, n) := hmatch
  have hext : ownerRepoNumberFromText text = Except.error "value out of range" := by
    simp [ownerRepoNumberFromText, hmatch2, hatoi]
  exact ⟨hext, by simp [expand, hext]⟩

/-- C5 witness: the 20-digit run in "a/b#18446744073709551616" (the value
2^64) overflows, so extraction errors and the expansion yields nothing. -/
theorem number_overflow_discarded_witness :
    ownerRepoNumberFromText "a/b#18446744073709551616"
        = Except.error "value out of range"
    ∧ expand (fun _ _ _ _ => Except.error "boom") "!r:example.org"
        "a/b#18446744073709551616" = none := by
  exact number_overflow_discarded "a/b#18446744073709551616"
    (['a']) (['b'])
    (['1', '8', '4', '4', '6', '7', '4', '4', '0', '7', '3', '7', '0', '9',
      '5', '5', '1', '6', '1', '6'])
    rfl (by decide) (fun _ _ _ _ => Except.error "boom") "!r:example.org"

/-- C8 witness: duplicating and permuting the event-type list of one room leaves
the delivery attempts unchanged, and with distinct room keys the attempted
rooms are distinct. -/
theorem routing_set_semantics_witness :
    (OnReceiveWebhook (Except.ok ("push", "octocat/Hello-World", "m"))
        [("!r1:x", ["push", "issue"]), ("!r2:x", ["merge"])] (fun _ _ => true)).attempts
      = (OnReceiveWebhook (Except.ok ("push", "octocat/Hello-World", "m"))
          [("!r1:x", ["issue", "push", "push"]), ("!r2:x", ["merge"])]
          (fun _ _ => true)).attempts
    ∧ ((OnReceiveWebhook (Except.ok ("push", "octocat/Hello-World", "m"))
          [("!r1:x", ["push", "issue"]), ("!r2:x", ["merge"])]
          (fun _ _ => true)).attempts.map Prod.fst).Nodup := by
  have hrel : List.Forall₂
      (fun (p q : String × List String) => p.1 = q.1 ∧ ∀ t, t ∈ p.2 ↔ t ∈ q.2)
      [("!r1:x", ["push", "issue"]), ("!r2:x", ["merge"])]
      [("!r1:x", ["issue", "push", "push"]), ("!r2:x", ["merge"])] := by
    refine List.Forall₂.cons ⟨rfl, ?_⟩ (List.Forall₂.cons ⟨rfl, ?_⟩ List.Forall₂.nil)
    · intro t
      constructor <;> (intro ht; simp at ht ⊢; tauto)
    · intro t
      exact Iff.rfl
  have h := routing_set_semantics
    [("!r1:x", ["push", "issue"]), ("!r2:x", ["merge"])]
    [("!r1:x", ["issue", "push", "push"]), ("!r2:x", ["merge"])]
    "push" "octocat/Hello-World" "m" (fun _ _ => true) hrel
  exact ⟨h.1, h.2 (by decide)⟩

end GoNeb
